import Mathlib

/-
Shallow embedding of the SST memHierarchy prototype cache controller
(cache.cc).  The cache controller source is translated definition by
definition; the simulator kernel, links and the snoop-bus arbiter are
external collaborators, so sends, bus requests and re-entrant calls into
the event dispatcher are modeled as emitted Action values, deferred
self-events carry a tagged SelfAction payload, and fatal aborts, failed
assertions and null-pointer dereferences are modeled as Except.error.
Machine integers (uint64_t Nat) are Nat, with explicit wraparound where
the source can underflow.  Declarations that live in the missing header
cache.h carry a doc comment saying what they were modelled from.
-/

set_option maxRecDepth 4096

namespace CacheModel

abbrev EventID := Nat × Nat

abbrev BlockHandle := Nat × Nat

inductive Command where
  | ReadReq | WriteReq | ReadResp | WriteResp
  | RequestData | SupplyData | Invalidate | ACK | NACK
  | Fetch | FetchInvalidate | BusClearToSend
deriving DecidableEq

inductive SourceType where
  | UPSTREAM | DOWNSTREAM | SNOOP | DIRECTORY | SELF | PREFETCHER
deriving DecidableEq

inductive BlockStatus where
  | INVALID | ASSIGNED | SHARED | EXCLUSIVE | DIRTY
deriving DecidableEq

inductive ForwardDir where
  | SEND_UP | SEND_DOWN | SEND_BOTH
deriving DecidableEq

inductive CacheMode where
  | STANDARD | INCLUSIVE | EXCLUSIVE
deriving DecidableEq

/-- Crash outcomes: an explicit _abort, a failed ASSERT/assert, or an
undefined null-pointer dereference, each tagged with its source site. -/
inductive Crash where
  | fatal (site : String)
  | assertFail (site : String)
  | nullDeref (site : String)
deriving DecidableEq

/-- Event structure after the schema of SST::Interfaces::MemEvent used by
the cache: id, response id, command, textual src/dst component names,
address, size, the three flags the cache queries, payload and the
delivering link id. -/
structure MemEvent where
  id : EventID := (0, 0)
  responseTo : EventID := (0, 0)
  cmd : Command := Command.ReadReq
  src : String := ""
  dst : String := ""
  addr : Nat := 0
  size : Nat := 0
  flagWriteback : Bool := false
  flagLocked : Bool := false
  flagDelayed : Bool := false
  payload : List Nat := []
  linkId : Nat := 0
deriving DecidableEq

/-- Cache block, after the data model of cache.h (§3 of the design):
base address, tag, coherence status, data bytes, protocol lock count,
LRU timestamp, user (atomic) lock count and its deferred-writeback flag,
writeback-in-progress flag, and the back reference to an outstanding
load (modeled by the load record's numeric identity). -/
structure CacheBlock where
  baseAddr : Nat := 0
  tag : Nat := 0
  status : BlockStatus := BlockStatus.INVALID
  data : List Nat := []
  locked : Nat := 0
  last_touched : Nat := 0
  user_locked : Nat := 0
  user_lock_needs_wb : Bool := false
  wb_in_progress : Bool := false
  loadInfo : Option Nat := none
deriving DecidableEq

/-- Modelled from the spec: CacheBlock::lock lives in cache.h, which is
not in src/; per §3 locked_count is a counter, so lock increments it. -/
def CacheBlock.lockB (b : CacheBlock) : CacheBlock :=
  { b with locked := b.locked + 1 }

/-- Modelled from the spec: CacheBlock::unlock (cache.h) decrements the
protocol lock count. -/
def CacheBlock.unlockB (b : CacheBlock) : CacheBlock :=
  { b with locked := b.locked - 1 }

/-- Modelled from the spec: CacheBlock::isLocked (cache.h): the lock
count is non-zero. -/
def CacheBlock.isLocked (b : CacheBlock) : Bool :=
  b.locked != 0

/-- Modelled from the spec: CacheBlock::isValid (cache.h): an Invalid
block has no valid data, and an Assigned block's data is not yet valid
(§3) — "An Assigned block is not a hit for any observer" (§4.4), its
requests proceed through the existing LoadInfo instead.  So only
Shared, Exclusive and Dirty blocks are valid. -/
def CacheBlock.isValid (b : CacheBlock) : Bool :=
  b.status != BlockStatus.INVALID && b.status != BlockStatus.ASSIGNED

/-- Modelled from the spec: CacheBlock::isInvalid (cache.h). -/
def CacheBlock.isInvalid (b : CacheBlock) : Bool :=
  b.status == BlockStatus.INVALID

/-- Modelled from the spec: CacheBlock::isAssigned (cache.h). -/
def CacheBlock.isAssigned (b : CacheBlock) : Bool :=
  b.status == BlockStatus.ASSIGNED

/-- Element of an outstanding load's queue: the event (null after a
delayed-supply purge), its source and its issue time. -/
structure LoadElement where
  ev : Option MemEvent := none
  src : SourceType := SourceType.UPSTREAM
  issueTime : Nat := 0
deriving DecidableEq

/-- Outstanding-load record (LoadInfo_t).  In the source it is a heap
object referenced by pointer; object identity is modeled by the liId
field, which the owning table and the target block record. -/
structure LoadInfo where
  liId : Nat := 0
  addr : Nat := 0
  initiatingEvent : EventID := (0, 0)
  loadDirection : ForwardDir := ForwardDir.SEND_DOWN
  targetBlock : Option BlockHandle := none
  busEvent : Option MemEvent := none
  list : List LoadElement := []
deriving DecidableEq

/-- Outstanding-invalidation record.  The defaults are the
default-constructed values a std::map operator[] lookup creates. -/
structure Invalidation where
  issuingEvent : EventID := (0, 0)
  waitingACKs : Int := 0
  canCancel : Bool := false
  block : Option BlockHandle := none
  newStatus : BlockStatus := BlockStatus.INVALID
  busEvent : Option MemEvent := none
  waitingEvents : List (MemEvent × SourceType) := []
deriving DecidableEq

/-- Supply-in-progress record (SupplyInfo). -/
structure SupplyInfo where
  busEvent : Option MemEvent := none
  canceled : Bool := false
deriving DecidableEq

/-- Directory-controller descriptor learned from the network at setup
(MemNIC::ComponentTypeInfo.dirctrl). -/
structure ComponentTypeInfo where
  rangeStart : Nat := 0
  rangeEnd : Nat := 0
  interleaveSize : Nat := 0
  interleaveStep : Nat := 0
deriving DecidableEq

/-- Directory peer entry (MemNIC::ComponentInfo restricted to the fields
the cache reads). -/
structure ComponentInfo where
  name : String := ""
  typeInfo : ComponentTypeInfo := {}
deriving DecidableEq

/-- Static configuration of one cache instance: geometry, mode, own
component name, which links are connected, the upstream link ids in
link-array order, the next_level parameter and the snapshotted
directory peer list. -/
structure Config where
  n_ways : Nat := 1
  n_rows : Nat := 1
  blocksize : Nat := 4
  cacheMode : CacheMode := CacheMode.STANDARD
  name : String := "cache"
  hasSnoop : Bool := false
  hasDownstream : Bool := false
  hasDirectory : Bool := false
  upstreamLinkIds : List Nat := []
  next_level_name : String := "NONE"
  directories : List ComponentInfo := []
deriving DecidableEq

def Config.n_upstream (cfg : Config) : Nat := cfg.upstreamLinkIds.length

/-- Base-2 logarithm by repeated halving, bounded by the 64-bit word
width so that it evaluates by plain unfolding. -/
def numBitsAux : Nat → Nat → Nat
  | 0, _ => 0
  | fuel + 1, x => if 2 ≤ x then numBitsAux fuel (x / 2) + 1 else 0

/-- Bit count of a power of two, as numBits computes via log. -/
def numBits (x : Nat) : Nat := numBitsAux 64 x

def Config.rowshift (cfg : Config) : Nat := numBits cfg.blocksize

def Config.rowmask (cfg : Config) : Nat := cfg.n_rows - 1

def Config.tagshift (cfg : Config) : Nat :=
  numBits cfg.blocksize + numBits cfg.n_rows

/-- Wrapping 64-bit subtraction: faithful to uint64_t arithmetic for
operands below 2^64. -/
def wsub64 (a b : Nat) : Nat := (2 ^ 64 + a - b) % 2 ^ 64

/-- Address to tag: addr shifted right by tagshift. -/
def addrToTag (cfg : Config) (addr : Nat) : Nat := addr >>> cfg.tagshift

/-- Address to block base address: addr AND NOT (blocksize - 1); the
64-bit complement of blocksize - 1 is 2^64 - blocksize. -/
def addrToBlockAddr (cfg : Config) (addr : Nat) : Nat :=
  addr.land (2 ^ 64 - cfg.blocksize)

/-- Row index of an address: (addr >> rowshift) AND rowmask. -/
def findRowIdx (cfg : Config) (addr : Nat) : Nat :=
  (addr >>> cfg.rowshift).land cfg.rowmask

/-- Association-list lookup used to model the std::map tables. -/
def alook {α β : Type} [DecidableEq α] (m : List (α × β)) (k : α) : Option β :=
  match m with
  | [] => none
  | (a, b) :: rest => if a = k then some b else alook rest k

/-- Association-list update (replace the binding for k, or append it). -/
def aset {α β : Type} [DecidableEq α] (m : List (α × β)) (k : α) (v : β) :
    List (α × β) :=
  match m with
  | [] => [(k, v)]
  | (a, b) :: rest => if a = k then (k, v) :: rest else (a, b) :: aset rest k v

/-- Association-list erase. -/
def aerase {α β : Type} [DecidableEq α] (m : List (α × β)) (k : α) :
    List (α × β) :=
  m.filter (fun p => decide (p.1 ≠ k))

/-- Per-row storage: the way array plus the per-row multimap from block
base address to the FIFO of waiting (event, source) entries (§3 Row). -/
structure CacheRow where
  blocks : List CacheBlock := []
  waitingEvents : List (Nat × List (MemEvent × SourceType)) := []
deriving DecidableEq

/-- Statistics counters printed at finish. -/
structure Stats where
  num_read_hit : Nat := 0
  num_read_miss : Nat := 0
  num_supply_hit : Nat := 0
  num_supply_miss : Nat := 0
  num_write_hit : Nat := 0
  num_write_miss : Nat := 0
  num_upgrade_miss : Nat := 0
deriving DecidableEq

/-- Mutable state of one cache instance: the row/way database, the three
outstanding tables, the L1 flag, fresh-id counters for events and load
records, the current simulation time and the statistics counters. -/
structure CacheState where
  database : List CacheRow := []
  waitingLoads : List (Nat × LoadInfo) := []
  invalidations : List (Nat × Invalidation) := []
  supplyInProgress : List ((Nat × SourceType) × SupplyInfo) := []
  isL1 : Bool := false
  nextId : Nat := 1
  nextLiId : Nat := 1
  now : Nat := 0
  stats : Stats := {}
deriving DecidableEq

def getRow (st : CacheState) (r : Nat) : CacheRow := st.database.getD r {}

def getBlock (st : CacheState) (h : BlockHandle) : CacheBlock :=
  (getRow st h.1).blocks.getD h.2 {}

def setRow (st : CacheState) (r : Nat) (row : CacheRow) : CacheState :=
  { st with database := st.database.set r row }

def setBlock (st : CacheState) (h : BlockHandle) (b : CacheBlock) : CacheState :=
  setRow st h.1 { getRow st h.1 with blocks := (getRow st h.1).blocks.set h.2 b }

def modifyBlock (st : CacheState) (h : BlockHandle)
    (f : CacheBlock → CacheBlock) : CacheState :=
  setBlock st h (f (getBlock st h))

/-- Handle (r, c) denotes an actual slot of the database. -/
def validHandle (st : CacheState) (h : BlockHandle) : Prop :=
  h.1 < st.database.length ∧ h.2 < (getRow st h.1).blocks.length


/-- Payload of a deferred self-event: the source binds a member function
and its arguments into a SelfEvent; here that closure is a tagged
variant. -/
inductive SelfAction where
  | retryEvent (ev : MemEvent) (block : Option BlockHandle) (src : SourceType)
  | sendCPUResponse (resp : MemEvent) (block : BlockHandle) (src : SourceType)
  | supplyData (ev : MemEvent) (block : BlockHandle) (src : SourceType)
  | finishLoadBlock (li : LoadInfo) (addr : Nat) (block : BlockHandle)
deriving DecidableEq

/-- Externally visible effect of a handler: a point-to-point send on one
of the links, a snoop-bus request or cancellation, a deferred
self-event, or a re-entrant call into the event dispatcher
(handleIncomingEvent with the two replay flags). -/
inductive Action where
  | sendUpstream (idx : Nat) (ev : MemEvent)
  | sendDownstream (ev : MemEvent)
  | sendDirectory (ev : MemEvent)
  | busRequest (ev : MemEvent)
  | busCancel (ev : MemEvent)
  | sendSelf (delay : Nat) (sa : SelfAction)
  | dispatch (ev : MemEvent) (src : SourceType) (firstTime firstPhase : Bool)
deriving DecidableEq

/-- Index of the upstream link with the given link id
(upstreamLinkMap[linkId]). -/
def upstreamIdx (cfg : Config) (lid : Nat) : Nat :=
  cfg.upstreamLinkIds.indexOf lid

/-- Cache::findBlock: scan the row of the address for a valid block with
the matching tag; if none and emptyOK, return the first Invalid block of
the row. -/
def findBlock (cfg : Config) (st : CacheState) (addr : Nat) (emptyOK : Bool) :
    Option BlockHandle :=
  let r := findRowIdx cfg addr
  let row := getRow st r
  let tag := addrToTag cfg addr
  match (List.range cfg.n_ways).find?
      (fun i => (row.blocks.getD i {}).isValid &&
        (row.blocks.getD i {}).tag == tag) with
  | some i => some (r, i)
  | none =>
    if emptyOK then
      match (List.range cfg.n_ways).find?
          (fun i => (row.blocks.getD i {}).isInvalid) with
      | some i => some (r, i)
      | none => none
    else none

/-- Modelled from the spec: CacheRow::getLRU is declared in cache.h,
which is not in src/; per §4.1 it returns the least-recently-touched
block whose lock count is zero, or none when every way is locked. -/
def getLRU (cfg : Config) (row : CacheRow) : Option Nat :=
  (List.range cfg.n_ways).foldl
    (fun best i =>
      let b := row.blocks.getD i {}
      if b.isLocked then best
      else
        match best with
        | none => some i
        | some j =>
          if b.last_touched < (row.blocks.getD j {}).last_touched then some i
          else some j)
    none

/-- Modelled from the spec: CacheRow::addWaitingEvent (cache.h): append
the (event, source) pair to the row's FIFO keyed by the event's block
base address (§3 Row). -/
def addWaitingEvent (cfg : Config) (st : CacheState) (r : Nat)
    (ev : MemEvent) (src : SourceType) : CacheState :=
  let row := getRow st r
  let key := addrToBlockAddr cfg ev.addr
  let q := (alook row.waitingEvents key).getD []
  setRow st r
    { row with waitingEvents := aset row.waitingEvents key (q ++ [(ev, src)]) }

/-- Entry with the least key, as begin() of the ordered std::map
delivers it. -/
def minKey {β : Type} (m : List (Nat × β)) : Option (Nat × β) :=
  m.foldl
    (fun best p =>
      match best with
      | none => some p
      | some q => if p.1 < q.1 then some p else some q)
    none

/-- Cache::handlePendingEvents: if the row has waiting events, pick the
queue of the given block's base address (or the first queue if no block
was given), reschedule each entry as a retry self-event and erase the
queue. -/
def handlePendingEvents (st : CacheState) (r : Nat)
    (bOpt : Option BlockHandle) : CacheState × List Action :=
  let row := getRow st r
  if row.waitingEvents.length > 0 then
    let q? :=
      match bOpt with
      | some h => (alook row.waitingEvents (getBlock st h).baseAddr).map
          (fun q => ((getBlock st h).baseAddr, q))
      | none => minKey row.waitingEvents
    match q? with
    | some (k, queue) =>
      (setRow st r { row with waitingEvents := aerase row.waitingEvents k },
       queue.map (fun p => Action.sendSelf 1 (SelfAction.retryEvent p.1 none p.2)))
    | none => (st, [])
  else (st, [])

/-- Write len bytes of src starting at soff into dst starting at doff. -/
def copyRange (dst : List Nat) (doff : Nat) (src : List Nat) (soff : Nat)
    (len : Nat) : List Nat :=
  (List.range len).foldl (fun d i => d.set (doff + i) (src.getD (soff + i) 0)) dst

/-- Cache::updateBlock: a full-size event replaces the front of the block
data with its payload; otherwise a sub-range is copied using the offset
of the event within the block, with the loop's ASSERT that every written
index stays below blocksize. -/
def updateBlock (cfg : Config) (now : Nat) (ev : MemEvent) (b : CacheBlock) :
    Except Crash CacheBlock :=
  if ev.size = cfg.blocksize then
    .ok { b with
          data := ev.payload ++ b.data.drop ev.payload.length
          last_touched := now }
  else
    let blockoffset := if ev.addr ≤ b.baseAddr then 0 else ev.addr - b.baseAddr
    let payloadoffset := if ev.addr ≥ b.baseAddr then 0 else b.baseAddr - ev.addr
    let len := min cfg.blocksize ev.size
    if 0 < len ∧ cfg.blocksize < blockoffset + len then
      .error (Crash.assertFail "updateBlock_offset")
    else
      .ok { b with
            data := copyRange b.data blockoffset ev.payload payloadoffset len
            last_touched := now }

/-- Response command for a request command. -/
def respCommand : Command → Command
  | Command.ReadReq => Command.ReadResp
  | Command.WriteReq => Command.WriteResp
  | Command.Invalidate => Command.ACK
  | Command.RequestData => Command.SupplyData
  | Command.Fetch => Command.SupplyData
  | Command.FetchInvalidate => Command.SupplyData
  | c => c

/-- Modelled from the spec: MemEvent::makeResponse lives in the
simulator interface header, not in src/; per the event schema (§6) the
response carries a fresh id, response_to set to the request id, the
request's address and size, the response command, and the requester as
destination. -/
def MemEvent.makeResponse (ev : MemEvent) (selfName : String) (nid : Nat) :
    MemEvent :=
  { id := (nid, 0)
    responseTo := ev.id
    cmd := respCommand ev.cmd
    src := selfName
    dst := ev.src
    addr := ev.addr
    size := ev.size }

/-- Cache::makeCPUResponse: abort when the request's offset within the
block plus its size exceeds the block size; otherwise build the
response, attaching the requested sub-range of the block data for a
ReadReq.  The offset subtraction is uint64_t arithmetic. -/
def makeCPUResponse (cfg : Config) (nid : Nat) (ev : MemEvent)
    (block : CacheBlock) : Except Crash MemEvent :=
  let offset := wsub64 ev.addr block.baseAddr
  if offset + ev.size > cfg.blocksize then
    .error (Crash.fatal "makeCPUResponse_split")
  else
    let resp := ev.makeResponse cfg.name nid
    if ev.cmd = Command.ReadReq then
      .ok { resp with payload := (block.data.drop offset).take ev.size }
    else .ok resp

/-- Cache::findTargetDirectory: scan the snapshotted peer list; the
first entry whose range contains the address wins if its interleave is
zero or the offset within the interleave step is below the interleave
size; no match is fatal. -/
def findTargetDirectory (dirs : List ComponentInfo) (addr : Nat) :
    Except Crash String :=
  match dirs with
  | [] => .error (Crash.fatal "findTargetDirectory")
  | i :: rest =>
    let di := i.typeInfo
    if addr ≥ di.rangeStart ∧ addr < di.rangeEnd then
      if di.interleaveSize = 0 then .ok i.name
      else
        let temp := addr - di.rangeStart
        let offset := temp % di.interleaveStep
        if offset < di.interleaveSize then .ok i.name
        else findTargetDirectory rest addr
    else findTargetDirectory rest addr

/-- Directory-match predicate written from the spec's words (§4.9): the
entry's half-open range contains the address, and either the interleave
size is zero or the offset of the address in the range, reduced mod the
interleave step, is strictly below the interleave size. -/
def dirMatchSpec (addr : Nat) (i : ComponentInfo) : Bool :=
  decide (i.typeInfo.rangeStart ≤ addr) && decide (addr < i.typeInfo.rangeEnd) &&
    (i.typeInfo.interleaveSize == 0 ||
      decide ((addr - i.typeInfo.rangeStart) % i.typeInfo.interleaveStep <
        i.typeInfo.interleaveSize))

/-- Cache::waitingForInvalidate: the invalidation table has a record for
the address. -/
def waitingForInvalidate (st : CacheState) (addr : Nat) : Bool :=
  (alook st.invalidations addr).isSome

/-- Lookup through std::map operator[]: return the record, inserting a
default-constructed one first when the key is absent. -/
def getOrInsertInv (m : List (Nat × Invalidation)) (addr : Nat) :
    Invalidation × List (Nat × Invalidation) :=
  match alook m addr with
  | some v => (v, m)
  | none => ({}, m ++ [(addr, {})])

/-- Append an event to the waiting queue of the invalidation record for
addr, through operator[]. -/
def queueOnInv (st : CacheState) (addr : Nat) (ev : MemEvent)
    (src : SourceType) : CacheState :=
  let (inv, m) := getOrInsertInv st.invalidations addr
  let inv2 := { inv with waitingEvents := inv.waitingEvents ++ [(ev, src)] }
  { st with invalidations := aset m addr inv2 }

/-- Cache::finishIssueInvalidate: with all ACKs in (asserted), apply the
recorded new status to the target block (if any) and unlock it, erase
the record before replaying, then replay the queued events in arrival
order; only the first replay carries first_phase_complete = true. -/
def finishIssueInvalidate (st : CacheState) (addr : Nat) :
    Except Crash (CacheState × List Action) :=
  let (inv, m0) := getOrInsertInv st.invalidations addr
  let st := { st with invalidations := m0 }
  if inv.waitingACKs ≠ 0 then .error (Crash.assertFail "finishIssueInvalidate_acks")
  else
    let st :=
      match inv.block with
      | some h => modifyBlock st h
          (fun b => { b.unlockB with status := inv.newStatus })
      | none => st
    let st := { st with invalidations := aerase st.invalidations addr }
    .ok (st, inv.waitingEvents.enum.map
      (fun p => Action.dispatch p.2.1 p.2.2 false (p.1 == 0)))

/-- Cache::issueInvalidate (address form): queue the triggering event on
the record, reset the ACK count, broadcast the Invalidate on the snoop
bus and on each enabled egress of the direction (skipping the upstream
link that delivered the trigger unless this is an eviction of a
different address), count one expected ACK per send, and complete
immediately when nobody was sent to. -/
def issueInvalidateAddr (cfg : Config) (st : CacheState) (ev : MemEvent)
    (src : SourceType) (addr : Nat) (direction : ForwardDir)
    (cancelable : Bool) : Except Crash (CacheState × List Action) :=
  let (inv0, m0) := getOrInsertInv st.invalidations addr
  let st := { st with invalidations := m0 }
  let inv1 := { inv0 with
                waitingEvents := inv0.waitingEvents ++ [(ev, src)]
                waitingACKs := 0
                canCancel := cancelable }
  let invalidateEvent : MemEvent :=
    { id := (st.nextId, 0), cmd := Command.Invalidate, src := cfg.name, addr := addr }
  let st := { st with nextId := st.nextId + 1 }
  let inv2 := { inv1 with issuingEvent := invalidateEvent.id }
  let (inv3, acts1) :=
    if cfg.hasSnoop then
      ({ inv2 with
         waitingACKs := inv2.waitingACKs + 1
         busEvent := some invalidateEvent },
       [Action.busRequest invalidateEvent])
    else (inv2, [])
  let (inv4, acts2) :=
    if direction = ForwardDir.SEND_DOWN ∨ direction = ForwardDir.SEND_BOTH then
      let (invA, actsA) :=
        if cfg.hasDownstream ∧ cfg.next_level_name ≠ "NONE" then
          ({ inv3 with waitingACKs := inv3.waitingACKs + 1 },
           [Action.sendDownstream invalidateEvent])
        else (inv3, [])
      if cfg.hasDirectory then
        ({ invA with waitingACKs := invA.waitingACKs + 1 },
         actsA ++ [Action.sendDirectory invalidateEvent])
      else (invA, actsA)
    else (inv3, [])
  let (inv5, acts3) :=
    if direction = ForwardDir.SEND_UP ∨ direction = ForwardDir.SEND_BOTH then
      (List.range cfg.n_upstream).foldl
        (fun acc i =>
          if cfg.upstreamLinkIds.getD i 0 ≠ ev.linkId ∨
              addrToBlockAddr cfg ev.addr ≠ addr then
            ({ acc.1 with waitingACKs := acc.1.waitingACKs + 1 },
             acc.2 ++ [Action.sendUpstream i invalidateEvent])
          else acc)
        (inv4, [])
    else (inv4, [])
  let st := { st with invalidations := aset st.invalidations addr inv5 }
  if inv5.waitingACKs = 0 then
    match finishIssueInvalidate st addr with
    | .error e => .error e
    | .ok (st2, actsF) => .ok (st2, acts1 ++ acts2 ++ acts3 ++ actsF)
  else .ok (st, acts1 ++ acts2 ++ acts3)

/-- Cache::issueInvalidate (block form): lock the block, record it and
the success status on the invalidation record, then issue by address. -/
def issueInvalidateBlock (cfg : Config) (st : CacheState) (ev : MemEvent)
    (src : SourceType) (h : BlockHandle) (newStatus : BlockStatus)
    (direction : ForwardDir) (cancelable : Bool) :
    Except Crash (CacheState × List Action) :=
  let st := modifyBlock st h CacheBlock.lockB
  let base := (getBlock st h).baseAddr
  let (inv0, m0) := getOrInsertInv st.invalidations base
  let inv1 := { inv0 with block := some h, newStatus := newStatus }
  let st := { st with invalidations := aset m0 base inv1 }
  issueInvalidateAddr cfg st ev src base direction cancelable

/-- Cache::ackInvalidate: look the record up through operator[]
(default-constructing one when absent); an ACK whose response id matches
the record's issuing event, or whose source is this cache itself, lowers
the ACK count (the count must stay non-negative, asserted) and completes
the invalidation when it reaches zero; any other ACK is ignored. -/
def ackInvalidate (cfg : Config) (st : CacheState) (ev : MemEvent) :
    Except Crash (CacheState × List Action) :=
  let addr := ev.addr
  let (inv, m0) := getOrInsertInv st.invalidations addr
  let st := { st with invalidations := m0 }
  if ev.responseTo = inv.issuingEvent ∨ ev.src = cfg.name then
    let remaining := inv.waitingACKs - 1
    let inv2 := { inv with waitingACKs := remaining }
    let st := { st with invalidations := aset st.invalidations addr inv2 }
    if remaining < 0 then .error (Crash.assertFail "ackInvalidate_remaining")
    else if remaining = 0 then finishIssueInvalidate st addr
    else .ok (st, [])
  else .ok (st, [])

/-- Cache::finishWritebackBlock: clear the in-progress flag, unlock when
the writeback went over the snoop bus, mirror the Writeback SupplyData
on the point-to-point downstream and directory links, set the new
status (an Invalid block must end up unlocked, asserted), and run the
row's pending events. -/
def finishWritebackBlock (cfg : Config) (st : CacheState) (h : BlockHandle)
    (newStatus : BlockStatus) (decrementLock : Bool) :
    Except Crash (CacheState × List Action) :=
  let st := modifyBlock st h (fun b => { b with wb_in_progress := false })
  let st := if decrementLock then modifyBlock st h CacheBlock.unlockB else st
  let b := getBlock st h
  let wbEv : MemEvent :=
    { id := (st.nextId, 0)
      cmd := Command.SupplyData
      src := cfg.name
      addr := b.baseAddr
      size := b.data.length
      flagWriteback := true
      payload := b.data }
  let (st, acts1) :=
    if cfg.hasDownstream then
      ({ st with nextId := st.nextId + 1 }, [Action.sendDownstream wbEv])
    else (st, [])
  let wbEv2 : MemEvent := { wbEv with id := (st.nextId, 0) }
  let (st, acts2) :=
    if cfg.hasDirectory then
      ({ st with nextId := st.nextId + 1 }, [Action.sendDirectory wbEv2])
    else (st, [])
  let r := findRowIdx cfg b.baseAddr
  let st := modifyBlock st h (fun b => { b with status := newStatus })
  if newStatus = BlockStatus.INVALID then
    if (getBlock st h).isLocked then
      .error (Crash.assertFail "finishWritebackBlock_locked")
    else
      let (st, acts3) := handlePendingEvents st r none
      .ok (st, acts1 ++ acts2 ++ acts3)
  else
    let (st, acts3) := handlePendingEvents st r (some h)
    .ok (st, acts1 ++ acts2 ++ acts3)

/-- Cache::writebackBlock: a no-op while a writeback is already in
progress; otherwise mark it, and either enqueue the Writeback
SupplyData on the snoop bus with the block locked (the bus-finish
callback later runs finishWritebackBlock with the unlock), or finish
directly when there is no snoop link. -/
def writebackBlock (cfg : Config) (st : CacheState) (h : BlockHandle)
    (newStatus : BlockStatus) : Except Crash (CacheState × List Action) :=
  if (getBlock st h).wb_in_progress then .ok (st, [])
  else
    let st := modifyBlock st h (fun b => { b with wb_in_progress := true })
    if cfg.hasSnoop then
      let st := modifyBlock st h CacheBlock.lockB
      let b := getBlock st h
      let wbEv : MemEvent :=
        { id := (st.nextId, 0)
          cmd := Command.SupplyData
          src := cfg.name
          addr := b.baseAddr
          size := b.data.length
          flagWriteback := true
          payload := b.data }
      .ok ({ st with nextId := st.nextId + 1 }, [Action.busRequest wbEv])
    else finishWritebackBlock cfg st h newStatus false

/-- Modelled from the spec: CacheBlock::activate (cache.h, not in src/):
per §4.4, when a load begins on a chosen slot the block becomes
Assigned for the load's base address and tag. -/
def CacheBlock.activate (cfg : Config) (b : CacheBlock) (addr : Nat) :
    CacheBlock :=
  { b with
    baseAddr := addrToBlockAddr cfg addr
    tag := addrToTag cfg addr
    status := BlockStatus.ASSIGNED }

/-- Cache::initLoad: look up or create the LoadInfo for the block base
address of the event; a fresh record takes the event as its initiating
event.  Returns the record and whether it was newly created. -/
def initLoad (cfg : Config) (st : CacheState) (ev : MemEvent) :
    LoadInfo × Bool × CacheState :=
  let blockAddr := addrToBlockAddr cfg ev.addr
  match alook st.waitingLoads blockAddr with
  | some li => (li, false, st)
  | none =>
    let li : LoadInfo := { liId := st.nextLiId, addr := blockAddr, initiatingEvent := ev.id }
    (li, true,
     { st with
       nextLiId := st.nextLiId + 1
       waitingLoads := aset st.waitingLoads blockAddr li })

/-- Cache::loadBlock: coalesce onto an existing load unless this event
is the load's own initiating event being reprocessed; otherwise pick an
eviction victim in the row (waiting on the row when all ways are
locked, invalidating upward first in INCLUSIVE mode, writing back an
Exclusive victim first), activate and lock the slot, record the load
and schedule finishLoadBlock after the access latency. -/
def loadBlock (cfg : Config) (st : CacheState) (ev : MemEvent)
    (src : SourceType) : Except Crash (CacheState × List Action) :=
  let (li, initial, st) := initLoad cfg st ev
  let reprocess := !initial
  if reprocess ∧ li.initiatingEvent ≠ ev.id then
    let li2 := { li with list := li.list ++ [{ ev := some ev, src := src, issueTime := st.now }] }
    .ok ({ st with waitingLoads := aset st.waitingLoads li.addr li2 }, [])
  else
    let r := findRowIdx cfg ev.addr
    match getLRU cfg (getRow st r) with
    | none => .ok (addWaitingEvent cfg st r ev src, [])
    | some c =>
      let h : BlockHandle := (r, c)
      if cfg.cacheMode = CacheMode.INCLUSIVE ∧
          (getBlock st h).status ≠ BlockStatus.INVALID then
        issueInvalidateBlock cfg st ev src h BlockStatus.INVALID
          ForwardDir.SEND_UP true
      else if (getBlock st h).status = BlockStatus.EXCLUSIVE then
        let st := addWaitingEvent cfg st r ev src
        writebackBlock cfg st h BlockStatus.INVALID
      else
        let st := modifyBlock st h (fun b => (b.activate cfg ev.addr).lockB)
        let el : LoadElement := { ev := some ev, src := src, issueTime := st.now }
        let li2 := { li with
                     loadDirection := ForwardDir.SEND_DOWN
                     targetBlock := some h
                     list := if reprocess then el :: li.list else li.list ++ [el] }
        let st := { st with waitingLoads := aset st.waitingLoads li.addr li2 }
        let st := modifyBlock st h (fun b => { b with loadInfo := some li2.liId })
        .ok (st, [Action.sendSelf 1
          (SelfAction.finishLoadBlock li2 (getBlock st h).baseAddr h)])

/-- Set the busEvent of the live load record the given record stands
for (the source mutates through the LoadInfo pointer). -/
def setLoadBusEvent (st : CacheState) (li : LoadInfo) (be : Option MemEvent) :
    CacheState :=
  match alook st.waitingLoads li.addr with
  | some cur => { st with waitingLoads := aset st.waitingLoads li.addr { cur with busEvent := be } }
  | none => st

/-- Cache::finishLoadBlock: unless the block is still Assigned for this
very load (or is Dirty and the load fetches upward), give up silently;
otherwise issue the fill request on the first available egress: for an
upward fetch broadcast RequestData on the upstream links (or the snoop
bus for an L1 or upstream-less cache), and for a downward load use the
downstream link, else the directory link (destination resolved by
findTargetDirectory), else the snoop bus. -/
def finishLoadBlock (cfg : Config) (st : CacheState) (li : LoadInfo)
    (addr : Nat) (h : BlockHandle) : Except Crash (CacheState × List Action) :=
  let b := getBlock st h
  if (¬(b.status = BlockStatus.DIRTY ∧ li.loadDirection = ForwardDir.SEND_UP) ∧
        b.status ≠ BlockStatus.ASSIGNED) ∨
      b.baseAddr ≠ addr ∨ b.loadInfo ≠ some li.liId then
    .ok (st, [])
  else
    let req : MemEvent :=
      { id := (st.nextId, 0)
        cmd := Command.RequestData
        src := cfg.name
        addr := b.baseAddr
        size := cfg.blocksize }
    if li.loadDirection = ForwardDir.SEND_UP then
      if cfg.n_upstream > 0 ∧ ¬st.isL1 then
        let acts := (List.range cfg.n_upstream).map
          (fun i => Action.sendUpstream i { req with id := (st.nextId + i, 0) })
        .ok ({ st with nextId := st.nextId + cfg.n_upstream }, acts)
      else if cfg.hasSnoop then
        let req2 := if cfg.next_level_name ≠ "NONE" then { req with dst := cfg.next_level_name } else req
        let st := { st with nextId := st.nextId + 1 }
        let st := setLoadBusEvent st li (some req2)
        .ok (st, [Action.busRequest req2])
      else .ok (st, [])
    else
      if cfg.hasDownstream then
        .ok ({ st with nextId := st.nextId + 1 }, [Action.sendDownstream req])
      else if cfg.hasDirectory then
        match findTargetDirectory cfg.directories b.baseAddr with
        | .error e => .error e
        | .ok dname =>
          .ok ({ st with nextId := st.nextId + 1 },
            [Action.sendDirectory { req with dst := dname }])
      else if cfg.hasSnoop then
        let req2 := if cfg.next_level_name ≠ "NONE" then { req with dst := cfg.next_level_name } else req
        let st := { st with nextId := st.nextId + 1 }
        let st := setLoadBusEvent st li (some req2)
        .ok (st, [Action.busRequest req2])
      else .ok (st, [])

/-- Cache::supplyData: the deferred send of a supply.  The supply record
must still exist (asserted); the block is unlocked; a canceled supply is
dropped.  A user-locked block answers with a payload-less Delayed
response and schedules the real supply for the user unlock; otherwise
the block data is attached.  The response goes out on the egress of the
requesting source; a non-delayed downstream or directory supply demotes
the block to Shared, and a delayed directory supply trips the assert. -/
def supplyData (cfg : Config) (st : CacheState) (ev : MemEvent)
    (h : BlockHandle) (src : SourceType) :
    Except Crash (CacheState × List Action) :=
  let key := ((getBlock st h).baseAddr, src)
  match alook st.supplyInProgress key with
  | none => .error (Crash.assertFail "supplyData_entry")
  | some sup =>
    let st := modifyBlock st h CacheBlock.unlockB
    if sup.canceled then
      .ok ({ st with supplyInProgress := aerase st.supplyInProgress key }, [])
    else
      let b := getBlock st h
      let resp0 : MemEvent :=
        { id := (st.nextId, 0)
          cmd := Command.SupplyData
          src := cfg.name
          addr := b.baseAddr }
      let st := { st with nextId := st.nextId + 1 }
      let (st, resp) :=
        if b.user_locked ≠ 0 then
          (modifyBlock st h (fun b => { b with user_lock_needs_wb := true }),
           { resp0 with flagDelayed := true, size := cfg.blocksize })
        else
          (st, { resp0 with payload := b.data, size := b.data.length })
      match src with
      | SourceType.DOWNSTREAM =>
        let st := { st with supplyInProgress := aerase st.supplyInProgress key }
        let st :=
          if ¬resp.flagDelayed then
            modifyBlock st h (fun b => { b with status := BlockStatus.SHARED })
          else st
        .ok (st, [Action.sendDownstream resp])
      | SourceType.SNOOP =>
        let sup2 := { sup with busEvent := some resp }
        let st := { st with supplyInProgress := aset st.supplyInProgress key sup2 }
        .ok (st, [Action.busRequest resp])
      | SourceType.DIRECTORY =>
        let st := { st with supplyInProgress := aerase st.supplyInProgress key }
        if resp.flagDelayed then
          .error (Crash.assertFail "supplyData_directory_delayed")
        else
          .ok (modifyBlock st h (fun b => { b with status := BlockStatus.SHARED }),
            [Action.sendDirectory resp])
      | SourceType.UPSTREAM =>
        let st := { st with supplyInProgress := aerase st.supplyInProgress key }
        .ok (st, [Action.sendUpstream (upstreamIdx cfg ev.linkId) resp])
      | _ => .ok (st, [])

def bumpSupplyHit (st : CacheState) : CacheState :=
  { st with stats := { st.stats with num_supply_hit := st.stats.num_supply_hit + 1 } }

def bumpSupplyMiss (st : CacheState) : CacheState :=
  { st with stats := { st.stats with num_supply_miss := st.stats.num_supply_miss + 1 } }

def bumpReadHit (st : CacheState) : CacheState :=
  { st with stats := { st.stats with num_read_hit := st.stats.num_read_hit + 1 } }

def bumpReadMiss (st : CacheState) : CacheState :=
  { st with stats := { st.stats with num_read_miss := st.stats.num_read_miss + 1 } }

def bumpWriteHit (st : CacheState) : CacheState :=
  { st with stats := { st.stats with num_write_hit := st.stats.num_write_hit + 1 } }

def bumpWriteMiss (st : CacheState) : CacheState :=
  { st with stats := { st.stats with num_write_miss := st.stats.num_write_miss + 1 } }

def bumpUpgradeMiss (st : CacheState) : CacheState :=
  { st with stats := { st.stats with num_upgrade_miss := st.stats.num_upgrade_miss + 1 } }

/-- Touch a block's LRU timestamp with the current time. -/
def touch (st : CacheState) (h : BlockHandle) : CacheState :=
  modifyBlock st h (fun b => { b with last_touched := st.now })

/-- Cache::handleCacheRequestEvent: discard our own snooped send; abort
on a size mismatch; on a hit, a Dirty block pretends to miss under snoop
and trips the assert otherwise, a duplicate uncanceled supply or a
writeback in progress discards the event, a pending invalidation queues
it, and otherwise a supply is recorded and scheduled; on a miss, a
Downstream request and a snoop request not addressed to us are
discarded, and any other source begins a fresh load. -/
def handleCacheRequestEvent (cfg : Config) (st : CacheState) (ev : MemEvent)
    (src : SourceType) (firstProcess : Bool) :
    Except Crash (CacheState × List Action) :=
  if src = SourceType.SNOOP ∧ ev.src = cfg.name then .ok (st, [])
  else
    let block? := findBlock cfg st ev.addr false
    if ev.size ≠ cfg.blocksize then
      .error (Crash.fatal "handleCacheRequestEvent_size")
    else
      match block? with
      | some h =>
        if (getBlock st h).status = BlockStatus.DIRTY then
          if src = SourceType.SNOOP then .ok (st, [])
          else .error (Crash.assertFail "handleCacheRequestEvent_dirty")
        else
          let st := if firstProcess then bumpSupplyHit st else st
          let key := ((getBlock st h).baseAddr, src)
          let dup :=
            match alook st.supplyInProgress key with
            | some sup => !sup.canceled
            | none => false
          if dup then .ok (st, [])
          else if waitingForInvalidate st (getBlock st h).baseAddr then
            .ok (queueOnInv st (getBlock st h).baseAddr ev src, [])
          else if (getBlock st h).wb_in_progress then .ok (st, [])
          else
            let st := { st with supplyInProgress := aset st.supplyInProgress key {} }
            let st := modifyBlock st h (fun b => { b.lockB with last_touched := st.now })
            .ok (st, [Action.sendSelf 1 (SelfAction.supplyData ev h src)])
      | none =>
        if src = SourceType.DOWNSTREAM then .ok (st, [])
        else if src ≠ SourceType.SNOOP ∨ ev.dst = cfg.name then
          let st := if firstProcess then bumpSupplyMiss st else st
          loadBlock cfg st ev src
        else .ok (st, [])

/-- One step of the snooped-supply cancellation pass of
handleCacheSupplyEvent: mark the supply record for (blkAddr, SNOOP)
canceled and cancel its pending bus request.  The arbiter hands the
handlers back for a request still in its queue; that successful case is
modeled, clearing busEvent. -/
def cancelSupplyAt (st : CacheState) (blkAddr : Nat) :
    CacheState × List Action :=
  let key := (blkAddr, SourceType.SNOOP)
  match alook st.supplyInProgress key with
  | none => (st, [])
  | some sup =>
    match sup.busEvent with
    | some be =>
      let sup2 : SupplyInfo := { busEvent := none, canceled := true }
      ({ st with supplyInProgress := aset st.supplyInProgress key sup2 },
       [Action.busCancel be])
    | none =>
      let sup2 := { sup with canceled := true }
      ({ st with supplyInProgress := aset st.supplyInProgress key sup2 }, [])

/-- Loop of the snooped-supply cancellation pass: step through the block
addresses covered by the event, asserting that none of them is held
Exclusive, and cancel any supply in progress for each. -/
def snoopSupplyScan (cfg : Config) (st : CacheState) (stop : Nat)
    (blkAddr : Nat) : Except Crash (CacheState × List Action) :=
  if hlt : blkAddr < stop ∧ 0 < cfg.blocksize then
    let b? := findBlock cfg st blkAddr false
    if (b?.map (fun h => (getBlock st h).status == BlockStatus.EXCLUSIVE)).getD false then
      .error (Crash.assertFail "handleCacheSupplyEvent_exclusive")
    else
      let (st, acts) := cancelSupplyAt st blkAddr
      match snoopSupplyScan cfg st stop (blkAddr + cfg.blocksize) with
      | .error e => .error e
      | .ok (st2, acts2) => .ok (st2, acts ++ acts2)
  else .ok (st, [])
termination_by stop - blkAddr
decreasing_by
  obtain ⟨h1, h2⟩ := hlt
  exact Nat.sub_lt_sub_left h1 (Nat.lt_add_of_pos_right h2)

/-- Snooped-supply cancellation pass of handleCacheSupplyEvent: only a
snoop-sourced supply covering at least one block runs the scan. -/
def supplyPrePass (cfg : Config) (st : CacheState) (ev : MemEvent)
    (src : SourceType) : Except Crash (CacheState × List Action) :=
  if src = SourceType.SNOOP then
    if ev.size ≥ cfg.blocksize then
      snoopSupplyScan cfg st (ev.addr + ev.size) (addrToBlockAddr cfg ev.addr)
    else .ok (st, [])
  else .ok (st, [])

/-- Replay decision for one queued load element when the fill arrived
from src: a snoop-sourced element is dropped when the fill itself came
over the snoop bus, an already-purged (null) element is skipped, and
anything else re-enters the dispatcher as a non-first-time event with
first_phase_complete set. -/
def fillReplay (src : SourceType) (e : LoadElement) : Option Action :=
  if src = SourceType.SNOOP ∧ e.src = SourceType.SNOOP then none
  else e.ev.map (fun m => Action.dispatch m e.src false true)

/-- Cache::handleCacheSupplyEvent: discard our own snooped send; a snoop
supply first cancels our own conflicting supplies; a supply matching an
outstanding load cancels the load's pending bus request and, with a
target block assigned, either purges snoop waiters on a Delayed fill
(reverting the block when nothing is left) or commits the fill: copy
the payload, set Shared, unlock, replay the queue and erase the record,
then run the row's pending events; without a matching load, INCLUSIVE
mode treats it as a writeback from above, and snoop/upstream writebacks
are forwarded toward the next level. -/
def handleCacheSupplyEvent (cfg : Config) (st : CacheState) (ev : MemEvent)
    (src : SourceType) : Except Crash (CacheState × List Action) :=
  if src = SourceType.SNOOP ∧ ev.src = cfg.name then .ok (st, [])
  else
    match supplyPrePass cfg st ev src with
    | .error e => .error e
    | .ok (st, acts0) =>
      match alook st.waitingLoads ev.addr with
      | some li =>
        let (st, li, acts1) :=
          match li.busEvent with
          | some be =>
            let li2 := { li with busEvent := none }
            ({ st with waitingLoads := aset st.waitingLoads ev.addr li2 }, li2,
             acts0 ++ [Action.busCancel be])
          | none => (st, li, acts0)
        match li.targetBlock with
        | none =>
          if src = SourceType.SNOOP then .ok (st, acts1)
          else .error (Crash.assertFail "handleCacheSupplyEvent_noTarget")
        | some h =>
          if ev.flagDelayed then
            let newList := li.list.map
              (fun e => if src = SourceType.SNOOP ∧ e.src = SourceType.SNOOP then { e with ev := none } else e)
            let deleted := (li.list.filter
              (fun e => decide (src = SourceType.SNOOP ∧ e.src = SourceType.SNOOP))).length
            if deleted = li.list.length then
              let st := { st with waitingLoads := aerase st.waitingLoads ev.addr }
              let st := modifyBlock st h (fun b => { b with loadInfo := none })
              let st := modifyBlock st h
                (fun b => if b.isAssigned then { b with status := BlockStatus.INVALID } else b)
              let st := modifyBlock st h CacheBlock.unlockB
              let pend := handlePendingEvents st (findRowIdx cfg (getBlock st h).baseAddr) (some h)
              .ok (pend.1, acts1 ++ pend.2)
            else
              let st := { st with waitingLoads := aset st.waitingLoads ev.addr { li with list := newList } }
              let pend := handlePendingEvents st (findRowIdx cfg (getBlock st h).baseAddr) (some h)
              .ok (pend.1, acts1 ++ pend.2)
          else
            match updateBlock cfg st.now ev (getBlock st h) with
            | .error e => .error e
            | .ok b2 =>
              let st := setBlock st h b2
              let st := modifyBlock st h
                (fun b => { b.unlockB with loadInfo := none, status := BlockStatus.SHARED })
              let replays := li.list.filterMap (fillReplay src)
              let st := { st with waitingLoads := aerase st.waitingLoads ev.addr }
              let pend := handlePendingEvents st (findRowIdx cfg (getBlock st h).baseAddr) (some h)
              .ok (pend.1, acts1 ++ replays ++ pend.2)
      | none =>
        let inclRes : Except Crash CacheState :=
          if cfg.cacheMode = CacheMode.INCLUSIVE then
            match findBlock cfg st ev.addr false with
            | none => .error (Crash.assertFail "handleCacheSupplyEvent_inclusiveBlock")
            | some h =>
              if (getBlock st h).status = BlockStatus.DIRTY ∨ src = SourceType.SNOOP then
                match updateBlock cfg st.now ev (getBlock st h) with
                | .error e => .error e
                | .ok b2 => .ok (setBlock st h { b2 with status := BlockStatus.SHARED })
              else .error (Crash.assertFail "handleCacheSupplyEvent_inclusiveStatus")
          else .ok st
        match inclRes with
        | .error e => .error e
        | .ok st =>
          if src = SourceType.SNOOP then
            if ev.dst = cfg.name then .ok (st, acts0)
            else if cfg.hasDownstream ∧ ev.flagWriteback then
              .ok (st, acts0 ++ [Action.sendDownstream ev])
            else if cfg.hasDirectory ∧ ev.flagWriteback then
              .ok (st, acts0 ++ [Action.sendDirectory { ev with src := cfg.name }])
            else .ok (st, acts0)
          else if src = SourceType.UPSTREAM then
            if ¬ev.flagWriteback then
              .error (Crash.assertFail "handleCacheSupplyEvent_upstreamWb")
            else if cfg.hasDownstream then
              .ok (st, acts0 ++ [Action.sendDownstream ev])
            else if cfg.hasDirectory then
              .ok (st, acts0 ++ [Action.sendDirectory { ev with src := cfg.name }])
            else .error (Crash.fatal "handleCacheSupplyEvent_noPath")
          else .ok (st, acts0)

/-- Body of Cache::handleCPURequest after its opening asserts.  A hit
queues behind a pending invalidation, answers reads (a Locked read of a
non-Exclusive block invalidates for Exclusive first, a Locked read
during a writeback or snoop supply retries later, a successful Locked
read takes the user lock), applies Exclusive writes (releasing the user
lock and scheduling the deferred writeback when the unlock empties it)
and turns non-Exclusive writes into upgrade invalidations; a miss
begins a load. -/
def handleCPURequestMain (cfg : Config) (st : CacheState) (ev : MemEvent)
    (firstProcess : Bool) (block? : Option BlockHandle) :
    Except Crash (CacheState × List Action) :=
  let isRead := ev.cmd = Command.ReadReq
  match block? with
      | some h =>
        if isRead then
          let st := if firstProcess then bumpReadHit st else st
          if waitingForInvalidate st (getBlock st h).baseAddr then
            .ok (touch (queueOnInv st (getBlock st h).baseAddr ev SourceType.UPSTREAM) h, [])
          else if ev.flagLocked ∧ (getBlock st h).status ≠ BlockStatus.EXCLUSIVE then
            match issueInvalidateBlock cfg st ev SourceType.UPSTREAM h
                BlockStatus.EXCLUSIVE ForwardDir.SEND_BOTH true with
            | .error e => .error e
            | .ok (st, acts) => .ok (touch st h, acts)
          else
            let lockCheck :=
              ev.flagLocked ∧
                ((getBlock st h).wb_in_progress ∨
                  (match alook st.supplyInProgress ((getBlock st h).baseAddr, SourceType.SNOOP) with
                   | some sup => !sup.canceled
                   | none => false) = true)
            if lockCheck then
              .ok (st, [Action.sendSelf 1 (SelfAction.retryEvent ev (some h) SourceType.UPSTREAM)])
            else
              let st :=
                if ev.flagLocked then
                  modifyBlock st h
                    (fun b => { b with user_locked := b.user_locked + 1, user_lock_needs_wb := false })
                else st
              match makeCPUResponse cfg st.nextId ev (getBlock st h) with
              | .error e => .error e
              | .ok resp =>
                let st := { st with nextId := st.nextId + 1 }
                .ok (touch st h,
                  [Action.sendSelf 1 (SelfAction.sendCPUResponse resp h SourceType.UPSTREAM)])
        else
          if (getBlock st h).status = BlockStatus.EXCLUSIVE then
            let st := if firstProcess then bumpWriteHit st else st
            match updateBlock cfg st.now ev (getBlock st h) with
            | .error e => .error e
            | .ok b2 =>
              let st := setBlock st h b2
              match makeCPUResponse cfg st.nextId ev (getBlock st h) with
              | .error e => .error e
              | .ok resp =>
                let st := { st with nextId := st.nextId + 1 }
                let acts1 := [Action.sendSelf 1 (SelfAction.sendCPUResponse resp h SourceType.UPSTREAM)]
                if (getBlock st h).user_locked ≠ 0 ∧ ev.flagLocked then
                  let st := modifyBlock st h (fun b => { b with user_locked := b.user_locked - 1 })
                  if (getBlock st h).user_locked = 0 ∧ (getBlock st h).user_lock_needs_wb then
                    match writebackBlock cfg st h BlockStatus.SHARED with
                    | .error e => .error e
                    | .ok (st, acts2) => .ok (touch st h, acts1 ++ acts2)
                  else .ok (touch st h, acts1)
                else .ok (touch st h, acts1)
          else
            let st := if firstProcess then bumpUpgradeMiss st else st
            if waitingForInvalidate st (getBlock st h).baseAddr then
              .ok (touch (queueOnInv st (getBlock st h).baseAddr ev SourceType.UPSTREAM) h, [])
            else
              match issueInvalidateBlock cfg st ev SourceType.UPSTREAM h
                  BlockStatus.EXCLUSIVE ForwardDir.SEND_BOTH true with
              | .error e => .error e
              | .ok (st, acts) => .ok (touch st h, acts)
      | none =>
        let st :=
          if firstProcess then
            if isRead then bumpReadMiss st else bumpWriteMiss st
          else st
        loadBlock cfg st ev SourceType.UPSTREAM

/-- Cache::handleCPURequest: mark the cache L1, assert the command is a
CPU read or write, and run the Locked-write assert (which dereferences
the looked-up block pointer) before dispatching to the hit/miss body. -/
def handleCPURequest (cfg : Config) (st : CacheState) (ev : MemEvent)
    (firstProcess : Bool) : Except Crash (CacheState × List Action) :=
  let st := { st with isL1 := true }
  if ¬(ev.cmd = Command.ReadReq ∨ ev.cmd = Command.WriteReq) then
    .error (Crash.assertFail "handleCPURequest_cmd")
  else
    let isRead := ev.cmd = Command.ReadReq
    let block? := findBlock cfg st ev.addr false
    let guard0 : Except Crash Unit :=
      if ev.flagLocked ∧ ¬isRead then
        match block? with
        | none => .error (Crash.nullDeref "handleCPURequest_lockedWrite")
        | some h =>
          if (getBlock st h).status = BlockStatus.EXCLUSIVE then .ok ()
          else .error (Crash.assertFail "handleCPURequest_lockedWrite")
      else .ok ()
    match guard0 with
    | .error e => .error e
    | .ok _ => handleCPURequestMain cfg st ev firstProcess block?

/-
Concrete fixtures: a small one-way, one-row cache used to instantiate
the theorems on executable inputs.
-/

def cfgA : Config :=
  { name := "c0", blocksize := 4, n_rows := 1, n_ways := 1, hasDownstream := true }

def evQ : MemEvent :=
  { id := (3, 0), cmd := Command.WriteReq, addr := 0, size := 4,
    payload := [9, 9, 9, 9], src := "cpu" }

def invA : Invalidation :=
  { issuingEvent := (7, 0), waitingACKs := 1, block := some (0, 0),
    newStatus := BlockStatus.EXCLUSIVE,
    waitingEvents := [(evQ, SourceType.UPSTREAM)] }

def blockShared : CacheBlock :=
  { baseAddr := 0, tag := 0, status := BlockStatus.SHARED,
    data := [10, 20, 30, 40], locked := 1 }

def stAck : CacheState :=
  { database := [{ blocks := [blockShared] }], invalidations := [(0, invA)] }

def evAck : MemEvent :=
  { id := (9, 0), responseTo := (7, 0), cmd := Command.ACK, addr := 0, src := "c1" }

def blockWB : CacheBlock :=
  { blockShared with wb_in_progress := true }

def stWB : CacheState :=
  { database := [{ blocks := [blockWB] }] }

def blockAssigned : CacheBlock :=
  { baseAddr := 0, tag := 0, status := BlockStatus.ASSIGNED, locked := 1,
    loadInfo := some 1, data := [0, 0, 0, 0] }

def liA : LoadInfo :=
  { liId := 1, addr := 0, initiatingEvent := (2, 0),
    loadDirection := ForwardDir.SEND_DOWN, targetBlock := some (0, 0) }

def stLoad : CacheState :=
  { database := [{ blocks := [blockAssigned] }], waitingLoads := [(0, liA)] }

def evAckP : MemEvent :=
  { id := (11, 0), responseTo := (5, 0), cmd := Command.ACK, addr := 0, src := "c9" }

def stNoInv : CacheState :=
  { database := [{ blocks := [blockShared] }] }

/-- Shape of the one outgoing supply response per source: a bus request
for Snoop, a downstream send for Downstream, an upstream send for
Upstream. -/
def deliveryAction (src : SourceType) (upIdx : Nat) (resp : MemEvent) : Action :=
  match src with
  | SourceType.SNOOP => Action.busRequest resp
  | SourceType.DOWNSTREAM => Action.sendDownstream resp
  | _ => Action.sendUpstream upIdx resp

def blockUL : CacheBlock :=
  { blockShared with user_locked := 1 }

def stSupDir : CacheState :=
  { database := [{ blocks := [blockUL] }],
    supplyInProgress := [((0, SourceType.DIRECTORY), {})] }

def stSupDown : CacheState :=
  { database := [{ blocks := [blockUL] }],
    supplyInProgress := [((0, SourceType.DOWNSTREAM), {})] }

def evSup : MemEvent :=
  { id := (4, 0), cmd := Command.RequestData, addr := 0, size := 4, src := "c1" }

def stNoBlock : CacheState :=
  { database := [{ blocks := [{}] }] }

def evReq : MemEvent :=
  { id := (6, 0), cmd := Command.RequestData, addr := 0, size := 4, src := "c1" }

def blockExcl : CacheBlock :=
  { baseAddr := 0, tag := 0, status := BlockStatus.EXCLUSIVE, data := [1, 2, 3, 4] }

def stExcl : CacheState :=
  { database := [{ blocks := [blockExcl] }] }

def evLockedWrite : MemEvent :=
  { id := (8, 0), cmd := Command.WriteReq, addr := 0, size := 4,
    payload := [5, 5, 5, 5], flagLocked := true, src := "cpu" }

def evFill : MemEvent :=
  { id := (13, 0), cmd := Command.SupplyData, addr := 0, size := 4,
    payload := [1, 2, 3, 4], src := "mem" }

def evUpReq : MemEvent :=
  { id := (14, 0), cmd := Command.RequestData, addr := 0, size := 4, src := "c3" }

def evSnoopReq : MemEvent :=
  { id := (12, 0), cmd := Command.RequestData, addr := 0, size := 4, src := "c2" }

def liFill : LoadInfo :=
  { liId := 1, addr := 0, initiatingEvent := (2, 0),
    loadDirection := ForwardDir.SEND_DOWN, targetBlock := some (0, 0),
    list := [{ ev := some evUpReq, src := SourceType.UPSTREAM, issueTime := 0 }] }

def stFillW : CacheState :=
  { database := [{ blocks := [blockAssigned] }], waitingLoads := [(0, liFill)] }

def liSnoopQ : LoadInfo :=
  { liId := 1, addr := 0, initiatingEvent := (2, 0),
    loadDirection := ForwardDir.SEND_DOWN, targetBlock := some (0, 0),
    list := [{ ev := some evSnoopReq, src := SourceType.SNOOP, issueTime := 0 }] }

def stFillC : CacheState :=
  { database := [{ blocks := [blockAssigned] }], waitingLoads := [(0, liSnoopQ)] }

/-
Helper lemmas about the table and storage primitives.
-/

theorem alook_aset_self {α β : Type} [DecidableEq α]
    (m : List (α × β)) (k : α) (v : β) : alook (aset m k v) k = some v := by
  induction m with
  | nil => simp [aset, alook]
  | cons p rest ih =>
    by_cases h : p.1 = k
    · simp [aset, alook, h]
    · simpa [aset, alook, h] using ih


theorem alook_aerase_self {α β : Type} [DecidableEq α]
    (m : List (α × β)) (k : α) : alook (aerase m k) k = none := by
  induction m with
  | nil => simp [aerase, alook]
  | cons p rest ih =>
    by_cases h : p.1 = k
    · simpa [aerase, alook, h] using ih
    · simpa [aerase, alook, h] using ih


theorem alook_append_right {α β : Type} [DecidableEq α]
    (m m' : List (α × β)) (k : α) (h : alook m k = none) :
    alook (m ++ m') k = alook m' k := by
  induction m with
  | nil => rfl
  | cons p rest ih =>
    obtain ⟨a, b⟩ := p
    by_cases hp : a = k
    · simp [alook, hp] at h
    · simp only [alook, hp, if_false, List.cons_append] at h ⊢
      exact ih h


theorem getRow_setRow_self (st : CacheState) (r : Nat) (row : CacheRow)
    (hr : r < st.database.length) : getRow (setRow st r row) r = row := by
  simp [getRow, setRow, List.getD, List.getElem?_set_self hr]


theorem getBlock_setBlock_self (st : CacheState) (h : BlockHandle)
    (b : CacheBlock) (hv : validHandle st h) :
    getBlock (setBlock st h b) h = b := by
  obtain ⟨h1, h2⟩ := hv
  simp [getBlock, setBlock, getRow_setRow_self st h.1 _ h1, List.getD,
    List.getElem?_set_self (by simpa using h2)]


theorem getBlock_modifyBlock_self (st : CacheState) (h : BlockHandle)
    (f : CacheBlock → CacheBlock) (hv : validHandle st h) :
    getBlock (modifyBlock st h f) h = f (getBlock st h) :=
  getBlock_setBlock_self st h _ hv

theorem getOrInsertInv_found (m : List (Nat × Invalidation)) (addr : Nat)
    (v : Invalidation) (h : alook m addr = some v) :
    getOrInsertInv m addr = (v, m) := by
  simp [getOrInsertInv, h]

theorem getOrInsertInv_missing (m : List (Nat × Invalidation)) (addr : Nat)
    (h : alook m addr = none) :
    getOrInsertInv m addr = (({} : Invalidation), m ++ [(addr, ({} : Invalidation))]) := by
  simp [getOrInsertInv, h]

theorem wsub64_eq (a b : Nat) (hle : b ≤ a) (hlt : a < 2 ^ 64) :
    wsub64 a b = a - b := by
  unfold wsub64
  have h1 : 2 ^ 64 + a - b = 2 ^ 64 + (a - b) := by omega
  rw [h1, Nat.add_mod_left, Nat.mod_eq_of_lt (by omega)]

/-- C4: for every address, findTargetDirectory returns the name of the
first snapshotted directory peer whose half-open range contains the
address and which passes the interleave test (trivially when
interleaveSize is zero); entries failing the interleave test are
skipped, and with no matching peer the lookup is a fatal error. -/
theorem findTargetDirectory_spec (dirs : List ComponentInfo) (addr : Nat) :
    findTargetDirectory dirs addr =
      match dirs.find? (dirMatchSpec addr) with
      | some i => Except.ok i.name
      | none => Except.error (Crash.fatal "findTargetDirectory") := by
  induction dirs with
  | nil => rfl
  | cons i rest ih =>
    by_cases hlo : i.typeInfo.rangeStart ≤ addr
    · by_cases hhi : addr < i.typeInfo.rangeEnd
      · by_cases hz : i.typeInfo.interleaveSize = 0
        · have hms : dirMatchSpec addr i = true := by simp [dirMatchSpec, hlo, hhi, hz]
          simp [findTargetDirectory, hlo, hhi, hz, List.find?_cons_of_pos _ hms]
        · by_cases ho : (addr - i.typeInfo.rangeStart) % i.typeInfo.interleaveStep <
              i.typeInfo.interleaveSize
          · have hms : dirMatchSpec addr i = true := by
              simp [dirMatchSpec, hlo, hhi, hz, ho]
            simp [findTargetDirectory, hlo, hhi, hz, ho, List.find?_cons_of_pos _ hms]
          · have hms : ¬dirMatchSpec addr i = true := by
              simp [dirMatchSpec, hlo, hhi, hz, ho]
            have hskip : findTargetDirectory (i :: rest) addr = findTargetDirectory rest addr := by
              simp [findTargetDirectory, hlo, hhi, hz, ho]
            rw [hskip, ih, List.find?_cons_of_neg _ hms]
      · have hms : ¬dirMatchSpec addr i = true := by simp [dirMatchSpec, hhi]
        have hskip : findTargetDirectory (i :: rest) addr = findTargetDirectory rest addr := by
          simp [findTargetDirectory, hhi]
        rw [hskip, ih, List.find?_cons_of_neg _ hms]
    · have hms : ¬dirMatchSpec addr i = true := by simp [dirMatchSpec, hlo]
      have hskip : findTargetDirectory (i :: rest) addr = findTargetDirectory rest addr := by
        simp [findTargetDirectory, hlo]
      rw [hskip, ih, List.find?_cons_of_neg _ hms]

/-- C5: makeCPUResponse aborts exactly when the request's offset within
the block plus its size exceeds the block size; otherwise a ReadReq is
answered with a payload that is the requested sub-range of the block
data, ev.size bytes starting at offset addr - baseAddr. -/
theorem makeCPUResponse_spec (cfg : Config) (nid : Nat) (ev : MemEvent)
    (block : CacheBlock) (hlen : block.data.length = cfg.blocksize)
    (hbase : block.baseAddr ≤ ev.addr) (haddr : ev.addr < 2 ^ 64) :
    ((∃ e, makeCPUResponse cfg nid ev block = Except.error e) ↔
      cfg.blocksize < ev.addr - block.baseAddr + ev.size)
    ∧ (∀ resp, makeCPUResponse cfg nid ev block = Except.ok resp →
        ev.cmd = Command.ReadReq →
        resp.payload.length = ev.size ∧
        ∀ i, i < ev.size →
          resp.payload.getD i 0 = block.data.getD (ev.addr - block.baseAddr + i) 0) := by
  have hw : wsub64 ev.addr block.baseAddr = ev.addr - block.baseAddr :=
    wsub64_eq _ _ hbase haddr
  unfold makeCPUResponse
  rw [hw]
  by_cases hbig : ev.addr - block.baseAddr + ev.size > cfg.blocksize
  · refine ⟨by simp [hbig], ?_⟩
    intro resp hresp
    rw [if_pos hbig] at hresp
    exact absurd hresp (by simp)
  · constructor
    · rw [if_neg hbig]
      constructor
      · intro he
        obtain ⟨e, he⟩ := he
        by_cases hcmd : ev.cmd = Command.ReadReq
        · rw [if_pos hcmd] at he
          exact absurd he (by simp)
        · rw [if_neg hcmd] at he
          exact absurd he (by simp)
      · intro hcon
        omega
    · intro resp hresp hcmd
      rw [if_neg hbig, if_pos hcmd] at hresp
      have hr : resp =
          { ev.makeResponse cfg.name nid with
            payload := (block.data.drop (ev.addr - block.baseAddr)).take ev.size } := by
        exact (Except.ok.injEq _ _).mp hresp.symm
      subst hr
      constructor
      · simp only [List.length_take, List.length_drop, hlen]
        omega
      · intro i hi
        simp only []
        rw [List.getD_eq_getElem?_getD, List.getD_eq_getElem?_getD,
          List.getElem?_take, if_pos hi, List.getElem?_drop]

/-- Witness for C5 at the concrete read of two bytes at offset 1 of a
four-byte shared block. -/
theorem makeCPUResponse_spec_witness :
    ((∃ e, makeCPUResponse cfgA 5
        { id := (2, 0), cmd := Command.ReadReq, addr := 1, size := 2, src := "cpu" }
        blockShared = Except.error e) ↔
      cfgA.blocksize < 1 - blockShared.baseAddr + 2)
    ∧ (∀ resp, makeCPUResponse cfgA 5
          { id := (2, 0), cmd := Command.ReadReq, addr := 1, size := 2, src := "cpu" }
          blockShared = Except.ok resp →
        Command.ReadReq = Command.ReadReq →
        resp.payload.length = 2 ∧
        ∀ i, i < 2 →
          resp.payload.getD i 0 = blockShared.data.getD (1 - blockShared.baseAddr + i) 0) :=
  makeCPUResponse_spec cfgA 5
    { id := (2, 0), cmd := Command.ReadReq, addr := 1, size := 2, src := "cpu" }
    blockShared (by decide) (by decide) (by decide)

/-- C8: writebackBlock is idempotent per block while a writeback is in
flight: with wb_in_progress already true it returns immediately, sends
no event and leaves the entire cache state unchanged. -/
theorem writebackBlock_idempotent (cfg : Config) (st : CacheState)
    (h : BlockHandle) (newStatus : BlockStatus)
    (hwb : (getBlock st h).wb_in_progress = true) :
    writebackBlock cfg st h newStatus = Except.ok (st, []) := by
  simp [writebackBlock, hwb]

/-- Witness for C8 on a concrete block with its writeback already in
progress. -/
theorem writebackBlock_idempotent_witness :
    writebackBlock cfgA stWB (0, 0) BlockStatus.INVALID = Except.ok (stWB, []) :=
  writebackBlock_idempotent cfgA stWB (0, 0) BlockStatus.INVALID (by rfl)

/-- C9: an ACK for an address with no outstanding invalidation record
does not leave the table unchanged: the operator[] lookup
default-constructs a record, so after an ignored ACK (response id
matching no issuing event, source not this cache) the address reads as
waiting for an invalidation. -/
theorem ackInvalidate_phantom_record (cfg : Config) (st : CacheState)
    (ev : MemEvent)
    (habs : alook st.invalidations ev.addr = none)
    (hnr : ev.responseTo ≠ ((0 : Nat), (0 : Nat)))
    (hns : ev.src ≠ cfg.name) :
    waitingForInvalidate st ev.addr = false ∧
    ackInvalidate cfg st ev =
      Except.ok ({ st with invalidations :=
        st.invalidations ++ [(ev.addr, ({} : Invalidation))] }, []) ∧
    waitingForInvalidate
      { st with invalidations := st.invalidations ++ [(ev.addr, ({} : Invalidation))] }
      ev.addr = true := by
  have hdef : ({} : Invalidation).issuingEvent = ((0 : Nat), (0 : Nat)) := rfl
  refine ⟨by simp [waitingForInvalidate, habs], ?_, ?_⟩
  · have hcond : ¬(ev.responseTo = ({} : Invalidation).issuingEvent ∨ ev.src = cfg.name) := by
      rw [hdef]
      rintro (h1 | h2)
      · exact hnr h1
      · exact hns h2
    simp only [ackInvalidate, getOrInsertInv_missing _ _ habs]
    rw [if_neg hcond]
  · rw [waitingForInvalidate, alook_append_right _ _ _ habs]
    simp [alook]

/-- Witness for C9 on a cache with an empty invalidation table. -/
theorem ackInvalidate_phantom_record_witness :
    waitingForInvalidate stNoInv evAckP.addr = false ∧
    ackInvalidate cfgA stNoInv evAckP =
      Except.ok ({ stNoInv with invalidations :=
        stNoInv.invalidations ++ [(evAckP.addr, ({} : Invalidation))] }, []) ∧
    waitingForInvalidate
      { stNoInv with invalidations :=
        stNoInv.invalidations ++ [(evAckP.addr, ({} : Invalidation))] }
      evAckP.addr = true :=
  ackInvalidate_phantom_record cfgA stNoInv evAckP (by rfl) (by decide) (by decide)

/-- C1: finishLoadBlock issues its outbound fill request only when the
target block is still Assigned, or is Dirty with an upward load
direction, and the block still carries the load's base address and a
loadInfo reference to this very record; in every other case it returns
without sending anything and without touching the state. -/
theorem finishLoadBlock_guard (cfg : Config) (st : CacheState) (li : LoadInfo)
    (addr : Nat) (h : BlockHandle) :
    (∀ st2 acts, finishLoadBlock cfg st li addr h = Except.ok (st2, acts) →
      acts ≠ [] →
      ((getBlock st h).status = BlockStatus.ASSIGNED ∨
        ((getBlock st h).status = BlockStatus.DIRTY ∧
          li.loadDirection = ForwardDir.SEND_UP)) ∧
      (getBlock st h).baseAddr = addr ∧
      (getBlock st h).loadInfo = some li.liId)
    ∧ (¬(((getBlock st h).status = BlockStatus.ASSIGNED ∨
          ((getBlock st h).status = BlockStatus.DIRTY ∧
            li.loadDirection = ForwardDir.SEND_UP)) ∧
        (getBlock st h).baseAddr = addr ∧
        (getBlock st h).loadInfo = some li.liId) →
      finishLoadBlock cfg st li addr h = Except.ok (st, [])) := by
  have hiff : ((¬((getBlock st h).status = BlockStatus.DIRTY ∧
        li.loadDirection = ForwardDir.SEND_UP) ∧
      (getBlock st h).status ≠ BlockStatus.ASSIGNED) ∨
      (getBlock st h).baseAddr ≠ addr ∨
      (getBlock st h).loadInfo ≠ some li.liId) ↔
      ¬(((getBlock st h).status = BlockStatus.ASSIGNED ∨
        ((getBlock st h).status = BlockStatus.DIRTY ∧
          li.loadDirection = ForwardDir.SEND_UP)) ∧
        (getBlock st h).baseAddr = addr ∧
        (getBlock st h).loadInfo = some li.liId) := by
    tauto
  constructor
  · intro st2 acts hres hne
    by_cases hC : ((getBlock st h).status = BlockStatus.ASSIGNED ∨
        ((getBlock st h).status = BlockStatus.DIRTY ∧
          li.loadDirection = ForwardDir.SEND_UP)) ∧
        (getBlock st h).baseAddr = addr ∧
        (getBlock st h).loadInfo = some li.liId
    · exact hC
    · have hg := hiff.mpr hC
      simp only [finishLoadBlock] at hres
      rw [if_pos hg] at hres
      simp only [Except.ok.injEq, Prod.mk.injEq] at hres
      exact absurd hres.2.symm hne
  · intro hnC
    have hg := hiff.mpr hnC
    simp only [finishLoadBlock]
    rw [if_pos hg]

/-- Witness for C1: an Assigned block whose load still references the
record issues the downstream fill request. -/
theorem finishLoadBlock_guard_witness :
    ((getBlock stLoad (0, 0)).status = BlockStatus.ASSIGNED ∨
      ((getBlock stLoad (0, 0)).status = BlockStatus.DIRTY ∧
        liA.loadDirection = ForwardDir.SEND_UP)) ∧
    (getBlock stLoad (0, 0)).baseAddr = 0 ∧
    (getBlock stLoad (0, 0)).loadInfo = some liA.liId :=
  (finishLoadBlock_guard cfgA stLoad liA 0 (0, 0)).1
    { stLoad with nextId := 2 }
    [Action.sendDownstream
      { id := (1, 0), cmd := Command.RequestData, src := "c0", addr := 0, size := 4 }]
    (by rfl) (by decide)

/-- C2: an ACK whose response id equals the outstanding record's issuing
event id, or whose source is this cache itself, lowers waiting_acks by
one; when it reaches zero the recorded new status is applied to the
target block (if any) and the block unlocked, the record is erased, and
the queued events are re-dispatched in FIFO arrival order, only the
first with first_phase_complete = true. -/
theorem ackInvalidate_matching (cfg : Config) (st : CacheState) (ev : MemEvent)
    (inv : Invalidation)
    (hrec : alook st.invalidations ev.addr = some inv)
    (hmatch : ev.responseTo = inv.issuingEvent ∨ ev.src = cfg.name) :
    (1 < inv.waitingACKs →
      ackInvalidate cfg st ev =
        Except.ok ({ st with invalidations := aset st.invalidations ev.addr { inv with waitingACKs := inv.waitingACKs - 1 } }, []))
    ∧ (inv.waitingACKs = 1 → ∃ st2,
        ackInvalidate cfg st ev = Except.ok (st2,
          inv.waitingEvents.enum.map
            (fun p => Action.dispatch p.2.1 p.2.2 false (p.1 == 0)))
        ∧ alook st2.invalidations ev.addr = none
        ∧ (inv.block = none → st2.database = st.database)
        ∧ (∀ hb, inv.block = some hb → validHandle st hb →
            getBlock st2 hb = { getBlock st hb with status := inv.newStatus, locked := (getBlock st hb).locked - 1 })) := by
  constructor
  · intro hgt
    simp only [ackInvalidate, getOrInsertInv_found _ _ _ hrec]
    rw [if_pos hmatch, if_neg (by omega : ¬(inv.waitingACKs - 1 < 0)),
      if_neg (by omega : ¬(inv.waitingACKs - 1 = 0))]
  · intro heq
    simp only [ackInvalidate, getOrInsertInv_found _ _ _ hrec]
    rw [if_pos hmatch, if_neg (by omega : ¬(inv.waitingACKs - 1 < 0)),
      if_pos (by omega : inv.waitingACKs - 1 = 0)]
    have hrec2 : alook (aset st.invalidations ev.addr { inv with waitingACKs := inv.waitingACKs - 1 }) ev.addr = some { inv with waitingACKs := inv.waitingACKs - 1 } :=
      alook_aset_self _ _ _
    simp only [finishIssueInvalidate, getOrInsertInv_found _ _ _ hrec2]
    rw [if_neg (by omega : ¬(inv.waitingACKs - 1 ≠ 0))]
    cases hbl : inv.block with
    | none =>
      simp only [hbl]
      refine ⟨_, rfl, ?_, ?_, ?_⟩
      · exact alook_aerase_self _ _
      · intro _
        rfl
      · intro hb hcon
        exact absurd hcon (by simp [hbl])
    | some hb =>
      simp only [hbl]
      refine ⟨_, rfl, ?_, ?_, ?_⟩
      · exact alook_aerase_self _ _
      · intro hcon
        exact absurd hcon (by simp [hbl])
      · intro hb2 hsome hv
        have h' : hb = hb2 := by injection hsome
        subst h'
        have hv2 : validHandle { st with invalidations := aset st.invalidations ev.addr { inv with waitingACKs := inv.waitingACKs - 1 } } hb := hv
        show getBlock (modifyBlock { st with invalidations := aset st.invalidations ev.addr { inv with waitingACKs := inv.waitingACKs - 1 } } hb (fun b => { b.unlockB with status := inv.newStatus })) hb = { getBlock st hb with status := inv.newStatus, locked := (getBlock st hb).locked - 1 }
        rw [getBlock_modifyBlock_self _ _ _ hv2]
        rfl

/-- Witness for C2 on a concrete record with one outstanding ACK, a
target block and one queued event. -/
theorem ackInvalidate_matching_witness :
    ∃ st2,
      ackInvalidate cfgA stAck evAck = Except.ok (st2, invA.waitingEvents.enum.map (fun p => Action.dispatch p.2.1 p.2.2 false (p.1 == 0)))
      ∧ alook st2.invalidations evAck.addr = none
      ∧ (invA.block = none → st2.database = stAck.database)
      ∧ (∀ hb, invA.block = some hb → validHandle stAck hb →
          getBlock st2 hb = { getBlock stAck hb with status := invA.newStatus, locked := (getBlock stAck hb).locked - 1 }) :=
  (ackInvalidate_matching cfgA stAck evAck invA (by rfl) (Or.inl (by rfl))).2 (by rfl)

theorem validHandle_modifyBlock (st : CacheState) (h : BlockHandle)
    (f : CacheBlock → CacheBlock) (hv : validHandle st h) :
    validHandle (modifyBlock st h f) h := by
  obtain ⟨h1, h2⟩ := hv
  constructor
  · simpa [modifyBlock, setBlock, setRow] using h1
  · have hrow : getRow (modifyBlock st h f) h.1 =
        { getRow st h.1 with
          blocks := (getRow st h.1).blocks.set h.2 (f (getBlock st h)) } :=
      getRow_setRow_self _ _ _ h1
    rw [hrow]
    simpa using h2

/-- C7 (amended): when a scheduled supply fires on a user-locked block
and was not canceled, supplyData sets user_lock_needs_wb and sends a
single response that carries the Delayed flag and no payload, provided
the supply's source is Upstream, Downstream or Snoop; a
Directory-sourced supply instead trips the assert that directory
supplies are never delayed (see the counterexample). -/
theorem supplyData_userLocked (cfg : Config) (st : CacheState) (ev : MemEvent)
    (h : BlockHandle) (src : SourceType) (sup : SupplyInfo)
    (hv : validHandle st h)
    (hs : alook st.supplyInProgress ((getBlock st h).baseAddr, src) = some sup)
    (hnc : sup.canceled = false)
    (hul : (getBlock st h).user_locked ≠ 0)
    (hsrc : src = SourceType.UPSTREAM ∨ src = SourceType.DOWNSTREAM ∨
      src = SourceType.SNOOP) :
    ∃ st2 resp,
      supplyData cfg st ev h src =
        Except.ok (st2, [deliveryAction src (upstreamIdx cfg ev.linkId) resp])
      ∧ resp.flagDelayed = true ∧ resp.payload = []
      ∧ (getBlock st2 h).user_lock_needs_wb = true := by
  have hv1 : validHandle (modifyBlock st h CacheBlock.unlockB) h :=
    validHandle_modifyBlock _ _ _ hv
  simp only [supplyData, hs]
  rw [hnc]
  simp only [Bool.false_eq_true, if_false]
  rw [getBlock_modifyBlock_self _ _ _ hv]
  simp only [CacheBlock.unlockB]
  rw [if_pos hul]
  rcases hsrc with hsrc | hsrc | hsrc <;> subst hsrc
  · refine ⟨_, _, rfl, rfl, rfl, ?_⟩
    show (getBlock (modifyBlock (modifyBlock st h CacheBlock.unlockB) h
      (fun b => { b with user_lock_needs_wb := true })) h).user_lock_needs_wb = true
    rw [getBlock_modifyBlock_self _ _ _ hv1]
  · refine ⟨_, _, rfl, rfl, rfl, ?_⟩
    show (getBlock (modifyBlock (modifyBlock st h CacheBlock.unlockB) h
      (fun b => { b with user_lock_needs_wb := true })) h).user_lock_needs_wb = true
    rw [getBlock_modifyBlock_self _ _ _ hv1]
  · refine ⟨_, _, rfl, rfl, rfl, ?_⟩
    show (getBlock (modifyBlock (modifyBlock st h CacheBlock.unlockB) h
      (fun b => { b with user_lock_needs_wb := true })) h).user_lock_needs_wb = true
    rw [getBlock_modifyBlock_self _ _ _ hv1]

/-- Witness for the amended C7 on a concrete downstream supply of a
user-locked block. -/
theorem supplyData_userLocked_witness :
    ∃ st2 resp,
      supplyData cfgA stSupDown evSup (0, 0) SourceType.DOWNSTREAM =
        Except.ok (st2, [deliveryAction SourceType.DOWNSTREAM (upstreamIdx cfgA evSup.linkId) resp])
      ∧ resp.flagDelayed = true ∧ resp.payload = []
      ∧ (getBlock st2 (0, 0)).user_lock_needs_wb = true :=
  supplyData_userLocked cfgA stSupDown evSup (0, 0) SourceType.DOWNSTREAM {}
    (by constructor <;> decide) (by rfl) (by rfl) (by decide)
    (Or.inr (Or.inl rfl))

/-- Counterexample to C7 as stated: a not-canceled supply firing on a
user-locked block with a Directory source does not send a Delayed
response; the simulation aborts on the assert that directory supplies
are never delayed. -/
theorem supplyData_directory_userLocked_cex :
    supplyData cfgA stSupDir evSup (0, 0) SourceType.DIRECTORY =
      Except.error (Crash.assertFail "supplyData_directory_delayed") := by
  rfl

theorem findBlock_set_isL1 (cfg : Config) (st : CacheState) (addr : Nat)
    (e : Bool) : findBlock cfg { st with isL1 := true } addr e = findBlock cfg st addr e := rfl

theorem getBlock_set_isL1 (st : CacheState) (h : BlockHandle) :
    getBlock { st with isL1 := true } h = getBlock st h := rfl

/-- C6: for every RequestData that is not our own snooped send,
handleCacheRequestEvent aborts on a size mismatch; with the block held
Dirty it discards a snoop request and trips the assert for any other
source; a miss from Downstream is discarded, a snoop miss not addressed
to us is discarded, and a miss from any other peer begins a fresh
load. -/
theorem handleCacheRequestEvent_cases (cfg : Config) (st : CacheState)
    (ev : MemEvent) (src : SourceType) (firstProcess : Bool)
    (hself : ¬(src = SourceType.SNOOP ∧ ev.src = cfg.name)) :
    (ev.size ≠ cfg.blocksize →
      handleCacheRequestEvent cfg st ev src firstProcess =
        Except.error (Crash.fatal "handleCacheRequestEvent_size"))
    ∧ (∀ h, ev.size = cfg.blocksize → findBlock cfg st ev.addr false = some h →
        (getBlock st h).status = BlockStatus.DIRTY →
        (src = SourceType.SNOOP →
          handleCacheRequestEvent cfg st ev src firstProcess = Except.ok (st, []))
        ∧ (src ≠ SourceType.SNOOP →
          handleCacheRequestEvent cfg st ev src firstProcess =
            Except.error (Crash.assertFail "handleCacheRequestEvent_dirty")))
    ∧ (ev.size = cfg.blocksize → findBlock cfg st ev.addr false = none →
        (src = SourceType.DOWNSTREAM →
          handleCacheRequestEvent cfg st ev src firstProcess = Except.ok (st, []))
        ∧ (src = SourceType.SNOOP → ev.dst ≠ cfg.name →
          handleCacheRequestEvent cfg st ev src firstProcess = Except.ok (st, []))
        ∧ (src ≠ SourceType.DOWNSTREAM → (src ≠ SourceType.SNOOP ∨ ev.dst = cfg.name) →
          handleCacheRequestEvent cfg st ev src firstProcess =
            loadBlock cfg (if firstProcess then bumpSupplyMiss st else st) ev src)) := by
  refine ⟨?_, ?_, ?_⟩
  · intro hsz
    simp only [handleCacheRequestEvent]
    rw [if_neg hself, if_pos hsz]
  · intro h hsz hfb hd
    constructor
    · intro hsn
      simp only [handleCacheRequestEvent, hfb]
      rw [if_neg hself, if_neg (by simp [hsz]), if_pos hd, if_pos hsn]
    · intro hns
      simp only [handleCacheRequestEvent, hfb]
      rw [if_neg hself, if_neg (by simp [hsz]), if_pos hd, if_neg hns]
  · intro hsz hfb
    refine ⟨?_, ?_, ?_⟩
    · intro hdn
      simp only [handleCacheRequestEvent, hfb]
      rw [if_neg hself, if_neg (by simp [hsz]), if_pos hdn]
    · intro hsn hnd
      simp only [handleCacheRequestEvent, hfb]
      rw [if_neg hself, if_neg (by simp [hsz]),
        if_neg (by simp [hsn] : ¬src = SourceType.DOWNSTREAM),
        if_neg (by simp [hsn, hnd] : ¬(src ≠ SourceType.SNOOP ∨ ev.dst = cfg.name))]
    · intro hnd hor
      simp only [handleCacheRequestEvent, hfb]
      rw [if_neg hself, if_neg (by simp [hsz]), if_neg hnd, if_pos hor]

/-- Witness for C6: a RequestData miss from an upstream peer on a cache
whose only way is Invalid begins a fresh load. -/
theorem handleCacheRequestEvent_cases_witness :
    handleCacheRequestEvent cfgA stNoBlock evReq SourceType.UPSTREAM true =
      loadBlock cfgA (bumpSupplyMiss stNoBlock) evReq SourceType.UPSTREAM :=
  ((handleCacheRequestEvent_cases cfgA stNoBlock evReq SourceType.UPSTREAM true
      (by decide)).2.2 (by rfl) (by decide)).2.2 (by decide) (Or.inl (by decide))

/-- C10: handleCPURequest requires a Locked WriteReq to hit an Exclusive
block: before any other handling it asserts block->status == EXCLUSIVE,
so with such a hit the handler proceeds into the normal hit/miss body,
while a Locked WriteReq that misses dereferences the null block pointer
inside the assert instead of reaching the miss path. -/
theorem handleCPURequest_lockedWrite (cfg : Config) (st : CacheState)
    (ev : MemEvent) (firstProcess : Bool)
    (hcmd : ev.cmd = Command.WriteReq) (hlock : ev.flagLocked = true) :
    (findBlock cfg st ev.addr false = none →
      handleCPURequest cfg st ev firstProcess =
        Except.error (Crash.nullDeref "handleCPURequest_lockedWrite"))
    ∧ (∀ h, findBlock cfg st ev.addr false = some h →
        (getBlock st h).status ≠ BlockStatus.EXCLUSIVE →
        handleCPURequest cfg st ev firstProcess =
          Except.error (Crash.assertFail "handleCPURequest_lockedWrite"))
    ∧ (∀ h, findBlock cfg st ev.addr false = some h →
        (getBlock st h).status = BlockStatus.EXCLUSIVE →
        handleCPURequest cfg st ev firstProcess =
          handleCPURequestMain cfg { st with isL1 := true } ev firstProcess (some h)) := by
  have hne : ¬¬(ev.cmd = Command.ReadReq ∨ ev.cmd = Command.WriteReq) := by
    simp [hcmd]
  have hlw : ev.flagLocked = true ∧ ¬(ev.cmd = Command.ReadReq) :=
    ⟨hlock, by simp [hcmd]⟩
  refine ⟨?_, ?_, ?_⟩
  · intro hfb
    simp only [handleCPURequest, findBlock_set_isL1, hfb]
    rw [if_neg hne, if_pos hlw]
  · intro h hfb hst
    simp only [handleCPURequest, findBlock_set_isL1, hfb]
    rw [if_neg hne, if_pos hlw, if_neg (by rw [getBlock_set_isL1]; exact hst)]
  · intro h hfb hst
    simp only [handleCPURequest, findBlock_set_isL1, hfb]
    rw [if_neg hne, if_pos hlw, if_pos (by rw [getBlock_set_isL1]; exact hst)]

/-- Witness for C10: a Locked WriteReq hitting a concrete Exclusive
block proceeds into the normal hit body. -/
theorem handleCPURequest_lockedWrite_witness :
    handleCPURequest cfgA stExcl evLockedWrite true =
      handleCPURequestMain cfgA { stExcl with isL1 := true } evLockedWrite true (some (0, 0)) :=
  (handleCPURequest_lockedWrite cfgA stExcl evLockedWrite true (by rfl) (by rfl)).2.2
    (0, 0) (by decide) (by decide)

theorem getBlock_setRow_waitingEvents (st : CacheState) (r : Nat)
    (m : List (Nat × List (MemEvent × SourceType))) (h' : BlockHandle) :
    getBlock (setRow st r { getRow st r with waitingEvents := m }) h' =
      getBlock st h' := by
  by_cases hr : r < st.database.length
  · by_cases heq : h'.1 = r
    · simp [getBlock, getRow, setRow, heq, List.getD, List.getElem?_set_self hr]
    · simp [getBlock, getRow, setRow, List.getD, List.getElem?_set_ne (Ne.symm heq)]
  · simp [getBlock, getRow, setRow, List.set_eq_of_length_le (Nat.le_of_not_lt hr)]

theorem handlePendingEvents_getBlock (st : CacheState) (r : Nat)
    (bOpt : Option BlockHandle) (h' : BlockHandle) :
    getBlock (handlePendingEvents st r bOpt).1 h' = getBlock st h' := by
  simp only [handlePendingEvents]
  split <;> (try split) <;> (try split) <;>
    first
    | rfl
    | exact getBlock_setRow_waitingEvents st r _ h'


theorem handlePendingEvents_waitingLoads (st : CacheState) (r : Nat)
    (bOpt : Option BlockHandle) :
    (handlePendingEvents st r bOpt).1.waitingLoads = st.waitingLoads := by
  simp only [handlePendingEvents]
  split <;> (try split) <;> (try split) <;> rfl


theorem handlePendingEvents_selfSends (st : CacheState) (r : Nat)
    (bOpt : Option BlockHandle) :
    ∀ a ∈ (handlePendingEvents st r bOpt).2, ∃ d sa, a = Action.sendSelf d sa := by
  intro a ha
  simp only [handlePendingEvents] at ha
  split at ha <;> (try split at ha) <;> (try split at ha) <;> simp at ha <;>
    (obtain ⟨x, b2, hmem, hx⟩ := ha
     exact ⟨1, SelfAction.retryEvent x none b2, hx.symm⟩)

theorem validHandle_setBlock (st : CacheState) (h : BlockHandle)
    (b : CacheBlock) (hv : validHandle st h) :
    validHandle (setBlock st h b) h :=
  validHandle_modifyBlock st h (fun _ => b) hv

theorem getBlock_set_waitingLoads (st : CacheState)
    (m : List (Nat × LoadInfo)) (h : BlockHandle) :
    getBlock { st with waitingLoads := m } h = getBlock st h := rfl

/-- C3 (amended): a SupplyData event matching an outstanding load with
an assigned target block and no Delayed flag cancels the load's pending
bus request, copies the payload into the block, transitions it to
Shared and unlocks it, erases the load record, and replays the queued
entries through the dispatcher in queue order — but a snoop-sourced
queued entry is discarded rather than replayed exactly when the supply
itself arrived over the snoop bus (fillReplay); the only trailing
actions are the row's pending-event retries. -/
theorem handleCacheSupplyEvent_fill (cfg : Config) (st st1 : CacheState)
    (ev : MemEvent) (src : SourceType) (acts0 : List Action) (li : LoadInfo)
    (h : BlockHandle)
    (hself : ¬(src = SourceType.SNOOP ∧ ev.src = cfg.name))
    (hpre : supplyPrePass cfg st ev src = Except.ok (st1, acts0))
    (hlook : alook st1.waitingLoads ev.addr = some li)
    (htb : li.targetBlock = some h)
    (hnd : ev.flagDelayed = false)
    (hsz : ev.size = cfg.blocksize)
    (hv : validHandle st1 h) :
    ∃ st2 pacts,
      handleCacheSupplyEvent cfg st ev src =
        Except.ok (st2,
          acts0 ++ (match li.busEvent with
            | some be => [Action.busCancel be]
            | none => []) ++ li.list.filterMap (fillReplay src) ++ pacts)
      ∧ alook st2.waitingLoads ev.addr = none
      ∧ getBlock st2 h = { getBlock st1 h with data := ev.payload ++ (getBlock st1 h).data.drop ev.payload.length, last_touched := st1.now, status := BlockStatus.SHARED, locked := (getBlock st1 h).locked - 1, loadInfo := none }
      ∧ (∀ a ∈ pacts, ∃ d sa, a = Action.sendSelf d sa) := by
  simp only [handleCacheSupplyEvent]
  rw [if_neg hself]
  simp only [hpre, hlook, hnd, Bool.false_eq_true, if_false]
  cases hbe : li.busEvent with
  | none =>
    simp only [hbe, getBlock_set_waitingLoads, updateBlock]
    rw [htb]
    split
    next heq2 => exact absurd heq2 (by simp)
    next h2 heq2 =>
    injection heq2 with hh
    subst hh
    rw [if_pos hsz]
    split
    next e heq3 => exact absurd heq3 (by simp)
    next b2 heq3 =>
    injection heq3 with hb2
    subst hb2
    simp only [List.append_nil]
    refine ⟨_, _, rfl, ?_, ?_, ?_⟩
    · rw [handlePendingEvents_waitingLoads]
      exact alook_aerase_self _ _
    · rw [handlePendingEvents_getBlock]
      have hv2 : validHandle (setBlock st1 h { getBlock st1 h with data := ev.payload ++ (getBlock st1 h).data.drop ev.payload.length, last_touched := st1.now }) h :=
        validHandle_setBlock st1 h _ hv
      rw [show getBlock { modifyBlock (setBlock st1 h { getBlock st1 h with data := ev.payload ++ (getBlock st1 h).data.drop ev.payload.length, last_touched := st1.now }) h (fun b => { b.unlockB with loadInfo := none, status := BlockStatus.SHARED }) with waitingLoads := aerase (modifyBlock (setBlock st1 h { getBlock st1 h with data := ev.payload ++ (getBlock st1 h).data.drop ev.payload.length, last_touched := st1.now }) h (fun b => { b.unlockB with loadInfo := none, status := BlockStatus.SHARED })).waitingLoads ev.addr } h = getBlock (modifyBlock (setBlock st1 h { getBlock st1 h with data := ev.payload ++ (getBlock st1 h).data.drop ev.payload.length, last_touched := st1.now }) h (fun b => { b.unlockB with loadInfo := none, status := BlockStatus.SHARED })) h from rfl]
      rw [getBlock_modifyBlock_self _ _ _ hv2]
      rw [getBlock_setBlock_self _ _ _ hv]
      rfl
    · exact handlePendingEvents_selfSends _ _ _
  | some be =>
    simp only [hbe, getBlock_set_waitingLoads, updateBlock]
    rw [htb]
    split
    next heq2 => exact absurd heq2 (by simp)
    next h2 heq2 =>
    injection heq2 with hh
    subst hh
    rw [if_pos hsz]
    split
    next e heq3 => exact absurd heq3 (by simp)
    next b2 heq3 =>
    injection heq3 with hb2
    subst hb2
    refine ⟨_, _, rfl, ?_, ?_, ?_⟩
    · rw [handlePendingEvents_waitingLoads]
      exact alook_aerase_self _ _
    · rw [handlePendingEvents_getBlock]
      have hvB : validHandle { st1 with waitingLoads := aset st1.waitingLoads ev.addr { li with busEvent := none } } h := hv
      have hv2 : validHandle (setBlock { st1 with waitingLoads := aset st1.waitingLoads ev.addr { li with busEvent := none } } h { getBlock st1 h with data := ev.payload ++ (getBlock st1 h).data.drop ev.payload.length, last_touched := st1.now }) h :=
        validHandle_setBlock _ h _ hvB
      have hstep : getBlock (modifyBlock (setBlock { st1 with waitingLoads := aset st1.waitingLoads ev.addr { li with busEvent := none } } h { getBlock st1 h with data := ev.payload ++ (getBlock st1 h).data.drop ev.payload.length, last_touched := st1.now }) h (fun b => { b.unlockB with loadInfo := none, status := BlockStatus.SHARED })) h = { getBlock st1 h with data := ev.payload ++ (getBlock st1 h).data.drop ev.payload.length, last_touched := st1.now, status := BlockStatus.SHARED, locked := (getBlock st1 h).locked - 1, loadInfo := none } := by
        rw [getBlock_modifyBlock_self _ _ _ hv2]
        rw [getBlock_setBlock_self _ _ _ hvB]
        rfl
      exact hstep
    · exact handlePendingEvents_selfSends _ _ _

/-- Witness for the amended C3: a downstream fill with one upstream
queued entry cancels nothing, fills the block and replays the entry. -/
theorem handleCacheSupplyEvent_fill_witness :
    ∃ st2 pacts,
      handleCacheSupplyEvent cfgA stFillW evFill SourceType.DOWNSTREAM =
        Except.ok (st2, [] ++ (match liFill.busEvent with
          | some be => [Action.busCancel be]
          | none => []) ++ liFill.list.filterMap (fillReplay SourceType.DOWNSTREAM) ++ pacts)
      ∧ alook st2.waitingLoads evFill.addr = none
      ∧ getBlock st2 (0, 0) = { getBlock stFillW (0, 0) with data := evFill.payload ++ (getBlock stFillW (0, 0)).data.drop evFill.payload.length, last_touched := stFillW.now, status := BlockStatus.SHARED, locked := (getBlock stFillW (0, 0)).locked - 1, loadInfo := none }
      ∧ (∀ a ∈ pacts, ∃ d sa, a = Action.sendSelf d sa) :=
  handleCacheSupplyEvent_fill cfgA stFillW stFillW evFill SourceType.DOWNSTREAM []
    liFill (0, 0) (by decide) (by rfl) (by rfl) (by rfl) (by rfl) (by rfl)
    (by constructor <;> decide)

/-- Counterexample to C3 as stated: a fill arriving from Downstream
replays a snoop-sourced queued entry through the dispatcher instead of
discarding it; the discard happens only for snoop-arriving fills. -/
theorem handleCacheSupplyEvent_snoop_entry_cex :
    (handleCacheSupplyEvent cfgA stFillC evFill SourceType.DOWNSTREAM).toOption.map Prod.snd =
      some [Action.dispatch evSnoopReq SourceType.SNOOP false true] := by
  decide

end CacheModel
